import Mathlib

/-!
Verification development for a MAVLink man-in-the-middle proxy
(`mitm.py`, `backend/main.py`, `backend/parsers/*`).

The Python sources are embedded shallowly: pure fragments become Lean
functions over `Nat`/`Int`/`ℚ` and `List`, stateful loops become explicit
state-passing, the thread-replacement protocol becomes a small-step
transition relation, and fallible code returns `Option`/`Except`.
-/

/-! ## Rounding (Python `round(v, 3)`)

`mitm.py` (`msg_sig`) and `backend/main.py` (`extract_xyz_from_app`)
round coordinates with Python's `round(float(v), 3)`, which rounds half
to even.  Values are modelled as exact rationals. -/

/-- Round a rational to the nearest integer, ties to even
(Python's `round` on exact values). -/
def roundHalfEven (q : ℚ) : ℤ :=
  let f := ⌊q⌋
  if q - f < 1/2 then f
  else if 1/2 < q - f then f + 1
  else if f % 2 = 0 then f else f + 1

/-- `round(v, 3)`: three decimal places, ties to even. -/
def round3 (v : ℚ) : ℚ := (roundHalfEven (v * 1000) : ℚ) / 1000

/-! ## Change-detection / dedup engine (`backend/main.py`, `raw_worker`)

`raw_worker` keeps `LAST_POS : Optional[tuple]` and `LAST_POS_REPEAT : int`
under `LOCK`, and for each extracted `(x, y, z)` triple either records a
first position, bumps the repeat counter, or resets on change.  The body
of the `with LOCK:` block (lines 324-376) is embedded as `observe`. -/

/-- A rounded `(x, y, z)` position, the payload of `LAST_POS`. -/
abbrev Pos := ℚ × ℚ × ℚ

/-- `LAST_POS` / `LAST_POS_REPEAT` of `backend/main.py`. -/
structure DedupState where
  lastPos : Option Pos
  lastPosRepeat : Nat
deriving DecidableEq

/-- Outcome of one dedup observation, as reported to the frontend:
first position, `type="none"` with `repeat_cnt`, or a change notification
carrying `repeat_since_last`. -/
inductive DedupOutcome where
  | firstSeen
  | repeated (count : Nat)
  | changed (previousRepeatCount : Nat)
deriving DecidableEq

/-- One pass of the `with LOCK:` block of `raw_worker` on a new `xyz`:
 * `LAST_POS is None` → record it, repeat count 0 (`firstSeen`);
 * `xyz == LAST_POS` → `LAST_POS_REPEAT += 1`, report the new count;
 * otherwise → reset the count to 0, update `LAST_POS`, and report
   `prev_repeat` (the count read before the branch). -/
def observe (st : DedupState) (xyz : Pos) : DedupOutcome × DedupState :=
  let prevRepeat := st.lastPosRepeat
  match st.lastPos with
  | none => (.firstSeen, ⟨some xyz, 0⟩)
  | some p =>
      if xyz = p then
        (.repeated (st.lastPosRepeat + 1), ⟨some p, st.lastPosRepeat + 1⟩)
      else
        (.changed prevRepeat, ⟨some xyz, 0⟩)

/-- Feed a list of positions through `observe`, collecting the outcomes. -/
def runObserve (st : DedupState) : List Pos → List DedupOutcome × DedupState
  | [] => ([], st)
  | p :: ps =>
      let (o, st1) := observe st p
      let (os, st2) := runObserve st1 ps
      (o :: os, st2)

/-! ## Frequency estimator (`mitm.py`, `main` lines 326-335)

The controller loop keeps `intervals`, `learned_hz` and
`last_setpoint_time` as module globals; each arrival of a tracked
setpoint runs the block embedded below as `recordArrival`.  Timestamps
are exact rationals. -/

/-- `intervals` / `learned_hz` / `last_setpoint_time` of `mitm.py`. -/
structure FreqState where
  intervals : List ℚ
  learnedHz : Option ℚ
  lastSetpointTime : ℚ
deriving DecidableEq

/-- The frequency-estimation block of `mitm.py`:
```
if last_setpoint_time > 0:
    intervals.append(now - last_setpoint_time)
    if len(intervals) > 40: intervals.pop(0)
    if len(intervals) >= 3:
        avg = sum(intervals) / len(intervals)
        if avg > 0: learned_hz = 1.0 / avg
last_setpoint_time = now
``` -/
def recordArrival (st : FreqState) (now : ℚ) : FreqState :=
  if 0 < st.lastSetpointTime then
    let ints1 := st.intervals ++ [now - st.lastSetpointTime]
    let ints2 := if 40 < ints1.length then ints1.tail else ints1
    let hz :=
      if 3 ≤ ints2.length then
        let avg := ints2.sum / (ints2.length : ℚ)
        if 0 < avg then some (1 / avg) else st.learnedHz
      else st.learnedHz
    ⟨ints2, hz, now⟩
  else ⟨st.intervals, st.learnedHz, now⟩

/-! ## Injector emission period (`mitm.py`, `injector_loop` line 173) -/

/-- `period = 1.0 / max(0.1, hz)` from `injector_loop`. -/
def injector_period (hz : ℚ) : ℚ := 1 / max (1/10) hz

/-! ## Injector replacement (`mitm.py`, `main` lines 368-385 and
`injector_loop` lines 176-183)

When a takeover replaces an Active session, the main thread runs

```
with takeover_lock: taking_over = True
if inject_thread and inject_thread.is_alive():
    stop_event.set()
    inject_thread.join()
    stop_event.clear()
inject_thread = threading.Thread(target=injector_loop, ...)
inject_thread.start()
```

while the previous injector polls `stop_event` (and `taking_over`) at
the top of every emission cycle and exits when either tells it to.  The
interleaving of the two threads is modelled as a small-step transition
relation; `Thread.join` is modelled by a step that is enabled only once
the old injector has terminated. -/

/-- Whether the previously started injector thread is still running. -/
inductive InjStatus where
  | running
  | stopped
deriving DecidableEq

/-- Joint state of the main thread (program counter through the
replacement block) and the previous injector thread. -/
structure TakeoverState where
  oldInjector : InjStatus
  stopEvent : Bool
  takingOver : Bool
  pc : Nat
  newStarted : Bool
deriving DecidableEq

/-- Interleaved small-step semantics of the replacement block and the
previous injector loop.  Main-thread steps follow the source order:
set `taking_over` (pc 0), `stop_event.set()` (pc 1), `join` (pc 2,
enabled only when the old injector has terminated), `stop_event.clear()`
(pc 3), start the replacement thread (pc 4).  Injector steps poll
`stop_event` and `taking_over` and either exit or emit one frame. -/
inductive TakeoverStep : TakeoverState → TakeoverState → Prop where
  | setTakingOver (s : TakeoverState) (h : s.pc = 0) :
      TakeoverStep s { s with takingOver := true, pc := 1 }
  | signalStop (s : TakeoverState) (h : s.pc = 1) :
      TakeoverStep s { s with stopEvent := true, pc := 2 }
  | joinOld (s : TakeoverState) (h : s.pc = 2)
      (hstopped : s.oldInjector = .stopped) :
      TakeoverStep s { s with pc := 3 }
  | clearStop (s : TakeoverState) (h : s.pc = 3) :
      TakeoverStep s { s with stopEvent := false, pc := 4 }
  | startNew (s : TakeoverState) (h : s.pc = 4) :
      TakeoverStep s { s with newStarted := true, pc := 5 }
  | injectorSeesStop (s : TakeoverState) (hrun : s.oldInjector = .running)
      (hstop : s.stopEvent = true) :
      TakeoverStep s { s with oldInjector := .stopped }
  | injectorSeesNoTakeover (s : TakeoverState)
      (hrun : s.oldInjector = .running) (hto : s.takingOver = false) :
      TakeoverStep s { s with oldInjector := .stopped }
  | injectorEmits (s : TakeoverState) (hrun : s.oldInjector = .running)
      (hstop : s.stopEvent = false) (hto : s.takingOver = true) :
      TakeoverStep s s

/-- Initial state of a replacement: the previous injector is alive, the
stop event is clear, and the replacement thread has not been started. -/
def takeoverInit : TakeoverState :=
  { oldInjector := .running, stopEvent := false, takingOver := true,
    pc := 0, newStarted := false }

/-- States reachable from `takeoverInit` under any interleaving. -/
def TakeoverReachable (s : TakeoverState) : Prop :=
  Relation.ReflTransGen TakeoverStep takeoverInit s

/-- Inductive invariant: the replacement thread is only started at the
end of the block (pc 5), and once the `join` at pc 2 has completed the
old injector has terminated (and never restarts). -/
def TakeoverInv (s : TakeoverState) : Prop :=
  (s.newStarted = true → s.pc = 5) ∧ (3 ≤ s.pc → s.oldInjector = .stopped)

/-! ## Operator override input (`mitm.py`, `main` lines 349-356)

Each override answer is read, stripped, and handled by
`float(new_str) if new_str else original`: a blank answer keeps the
original value, while any non-blank answer goes through Python's
`float`, whose failure raises an uncaught `ValueError`. -/

/-- Value of a digit string (most significant first). -/
def digitsVal (l : List Char) : Nat :=
  l.foldl (fun acc c => 10 * acc + (c.toNat - '0'.toNat)) 0

/-- Python's `float(s)` on plain decimal literals: optional sign, then
digits with an optional fractional part.  (Exponent, `inf` and `nan`
forms are omitted; none of the claims depends on them — only on which
strings are blank and on `float` rejecting non-numeric text.) -/
def pyFloat? (s : String) : Option ℚ :=
  let cs := s.toList
  let sr : ℚ × List Char :=
    match cs with
    | '-' :: r => (-1, r)
    | '+' :: r => (1, r)
    | r => (1, r)
  let sign := sr.1
  let intPart := sr.2.takeWhile Char.isDigit
  let rest := sr.2.dropWhile Char.isDigit
  match rest with
  | [] => if intPart.isEmpty then none else some (sign * digitsVal intPart)
  | '.' :: frac =>
      if frac.all Char.isDigit && !(intPart.isEmpty && frac.isEmpty) then
        some (sign * ((digitsVal intPart : ℚ) +
          (digitsVal frac : ℚ) / ((10 : ℚ) ^ frac.length)))
      else none
  | _ => none

/-- `float(new_str) if new_str else orig` (`mitm.py` lines 349-356),
where `new_str` is the operator's answer already stripped at the read
site (`get_user_input(...).strip()`): a blank answer keeps the original
value; a non-blank answer is parsed by `float`, and a parse failure is
the uncaught `ValueError` (`.error ()`). -/
def overrideValue (s : String) (orig : Option ℚ) : Except Unit (Option ℚ) :=
  if s.isEmpty then .ok orig
  else
    match pyFloat? s with
    | some v => .ok (some v)
    | none => .error ()

/-! ## Controller-path router (`mitm.py`, `main` lines 316-403)

The loop body for a datagram from the controller: pymavlink parsing is
external, so a datagram is represented by the list of messages the
parser recovered from it (empty when decode fails outright).  The last
setpoint-typed message is selected (`msgs[::-1]` scan), its signature is
compared with `last_sig`, and the datagram is either forwarded to the
PX4-facing socket, suppressed, or turned into a takeover. -/

/-- The two tracked setpoint message types. -/
inductive SpType where
  | setPositionTargetLocalNed
  | positionTargetLocalNed
deriving DecidableEq

/-- A decoded message: a tracked setpoint with its fields (each possibly
absent, as `getattr(m, ..., None)` may yield `None`), or any other
message type, identified by name. -/
inductive CtrlMsg where
  | setpoint (t : SpType) (x y z yaw : Option ℚ)
  | other (name : String)
deriving DecidableEq

/-- `SetpointSignature`: the tuple `(t, r(x), r(y), r(alt), r(yaw))`
built by `msg_sig`, with `alt = -z` and `r` rounding to 3 decimals. -/
structure Sig where
  t : SpType
  x : Option ℚ
  y : Option ℚ
  alt : Option ℚ
  yaw : Option ℚ
deriving DecidableEq

/-- `msg_sig` of `mitm.py` (lines 111-124) on a tracked setpoint. -/
def msg_sig (t : SpType) (x y z yaw : Option ℚ) : Sig :=
  ⟨t, x.map round3, y.map round3,
    (z.map (fun zz => -zz)).map round3, yaw.map round3⟩

/-- The `for m in msgs[::-1]` scan: the last setpoint-typed message of
the datagram, if any. -/
def findSetpoint : List CtrlMsg → Option CtrlMsg
  | [] => none
  | m :: rest =>
      match findSetpoint rest with
      | some f => some f
      | none =>
          match m with
          | .setpoint t x y z yaw => some (.setpoint t x y z yaw)
          | .other _ => none

/-- `DEFAULT_INJECT_HZ` of `mitm.py`. -/
def DEFAULT_INJECT_HZ : ℚ := 10

/-- The mutable controller-path state of `mitm.py` `main`: `last_sig`,
the frequency-estimator globals, `taking_over`, and the injector
parameters set on takeover. -/
structure RouterState where
  lastSig : Option Sig
  freq : FreqState
  takingOver : Bool
  injectTemplate : Option (Option ℚ × Option ℚ × Option ℚ)
  injectAlt : Option ℚ
  injectHz : ℚ
deriving DecidableEq

/-- The `if found:` body of the controller branch (`mitm.py` lines
324-398), for the setpoint message the scan selected: update the
frequency estimator; on a new signature prompt the operator (possibly
raising), start a takeover on a changed answer or forward the original
on an unchanged one; on a repeated signature forward exactly when not
taking over. -/
def ctrlStepSetpoint (st : RouterState) (t : SpType) (x y z yaw : Option ℚ)
    (now : ℚ) (inX inY inAlt : String) : Except Unit (RouterState × Bool) :=
  let sig := msg_sig t x y z yaw
  let freq1 := recordArrival st.freq now
  if some sig ≠ st.lastSig then
    let alt := z.map (fun zz => -zz)
    do
      let newX ← overrideValue inX x
      let newY ← overrideValue inY y
      let newAlt ← overrideValue inAlt alt
      if newX ≠ x ∨ newY ≠ y ∨ newAlt ≠ alt then
        .ok ({ lastSig := some sig, freq := freq1, takingOver := true,
               injectTemplate := some (newX, newY, yaw),
               injectAlt := match newAlt with | some a => some a | none => alt,
               injectHz := match freq1.learnedHz with
                           | some h => h
                           | none => DEFAULT_INJECT_HZ }, false)
      else
        .ok ({ st with lastSig := some sig, freq := freq1 }, true)
  else
    .ok ({ st with freq := freq1 }, !st.takingOver)

/-- One iteration of the controller branch (`mitm.py` lines 316-403) on
a datagram whose parse recovered `msgs`, at time `now`, with the three
operator override answers.  Returns the new state and whether the
datagram was forwarded to the PX4-facing socket; `.error ()` is the
uncaught `ValueError` of a non-numeric override answer. -/
def ctrlStep (st : RouterState) (msgs : List CtrlMsg) (now : ℚ)
    (inX inY inAlt : String) : Except Unit (RouterState × Bool) :=
  match findSetpoint msgs with
  | none => .ok (st, true)
  | some (.other _) => .ok (st, true)
  | some (.setpoint t x y z yaw) =>
      ctrlStepSetpoint st t x y z yaw now inX inY inAlt

/-- A controller-origin datagram paired with its arrival time and the
operator's answers should it prompt. -/
structure CtrlDatagram where
  msgs : List CtrlMsg
  now : ℚ
  inX : String
  inY : String
  inAlt : String

/-- Run the controller loop over a sequence of datagrams, counting how
many frames reach the PX4-facing socket. -/
def runCtrl (st : RouterState) :
    List CtrlDatagram → Except Unit (RouterState × Nat)
  | [] => .ok (st, 0)
  | d :: ds => do
      let r ← ctrlStep st d.msgs d.now d.inX d.inY d.inAlt
      let rest ← runCtrl r.1 ds
      .ok (rest.1, (if r.2 then 1 else 0) + rest.2)

/-- The startup state of `mitm.py`: no signature seen, empty frequency
window, passthrough. -/
def routerInit : RouterState :=
  ⟨none, ⟨[], none, 0⟩, false, none, none, DEFAULT_INJECT_HZ⟩

/-- The setpoint of end-to-end scenario A:
`SET_POSITION_TARGET_LOCAL_NED(x=1.0, y=2.0, z=-3.0)`. -/
def sampleSetpointMsg : CtrlMsg :=
  .setpoint .setPositionTargetLocalNed (some 1) (some 2) (some (-3)) (some 0)

/-- Scenario A: the same setpoint arrives three times; the operator
keeps every original value (blank answers). -/
def threeIdenticalScenario : List CtrlDatagram :=
  [⟨[sampleSetpointMsg], 1, "", "", ""⟩,
   ⟨[sampleSetpointMsg], 2, "", "", ""⟩,
   ⟨[sampleSetpointMsg], 3, "", "", ""⟩]

/-- A state in which a takeover is Active and the scenario-A setpoint's
signature is the one last observed. -/
def activeRepeatState : RouterState :=
  { lastSig := some (msg_sig .setPositionTargetLocalNed
      (some 1) (some 2) (some (-3)) (some 0)),
    freq := ⟨[], none, 0⟩, takingOver := true, injectTemplate := none,
    injectAlt := none, injectHz := DEFAULT_INJECT_HZ }

/-! ## Link/network demultiplexer (`backend/main.py`,
`parse_ethernet_ipv4_udp`, lines 108-174)

A captured frame is a byte list.  The Python function peels the 14-byte
Ethernet header, a ≥20-byte IPv4 header whose true length comes from
the IHL nibble, and the fixed 8-byte UDP header, returning `None` on
any other protocol combination or length shortfall. -/

/-- Big-endian `eth_type` at offsets 12-13. -/
def ethTypeOf (frame : List Nat) : Nat :=
  256 * frame.getD 12 0 + frame.getD 13 0

/-- `(ver_ihl & 0x0F) * 4`: declared IPv4 header length, from byte 14. -/
def ihlOf (frame : List Nat) : Nat := frame.getD 14 0 % 16 * 4

/-- IPv4 `proto` field, at byte 23 (offset 9 of the IP header). -/
def protoOf (frame : List Nat) : Nat := frame.getD 23 0

/-- The `LinkLayer` record built from the Ethernet header. -/
structure LinkLayer where
  dstMac : List Nat
  srcMac : List Nat
  ethType : Nat
deriving DecidableEq

/-- The tuple `(link, src_ip, src_port, dst_ip, dst_port, udp_payload)`
returned on success. -/
structure DemuxResult where
  link : LinkLayer
  srcIp : List Nat
  srcPort : Nat
  dstIp : List Nat
  dstPort : Nat
  payload : List Nat
deriving DecidableEq

/-- `parse_ethernet_ipv4_udp` of `backend/main.py`: the guard sequence
and extraction mirror the source line by line. -/
def parse_ethernet_ipv4_udp (frame : List Nat) : Option DemuxResult :=
  if frame.length < 14 then none
  else
    let link : LinkLayer := ⟨frame.take 6, (frame.drop 6).take 6, ethTypeOf frame⟩
    if ethTypeOf frame ≠ 0x0800 then none
    else if frame.length < 14 + 20 then none
    else
      let ihl := ihlOf frame
      if frame.length < 14 + ihl then none
      else if protoOf frame ≠ 17 then none
      else
        let udpStart := 14 + ihl
        if frame.length < udpStart + 8 then none
        else
          let payloadStart := udpStart + 8
          if frame.length < payloadStart then none
          else
            some ⟨link, (frame.drop 26).take 4,
              256 * frame.getD udpStart 0 + frame.getD (udpStart + 1) 0,
              (frame.drop 30).take 4,
              256 * frame.getD (udpStart + 2) 0 + frame.getD (udpStart + 3) 0,
              frame.drop payloadStart⟩

/-- The claim's rejection condition, stated in its words: the frame is
not Ethernet+IPv4+UDP, or a declared length field makes the frame too
short to contain the next layer (Ethernet header, IPv4 header of the
declared IHL, or the 8-byte UDP header). -/
def demuxRejects (frame : List Nat) : Prop :=
  frame.length < 14 ∨
  ethTypeOf frame ≠ 0x0800 ∨
  frame.length < 34 ∨
  frame.length < 14 + ihlOf frame ∨
  protoOf frame ≠ 17 ∨
  frame.length < 14 + ihlOf frame + 8

instance (frame : List Nat) : Decidable (demuxRejects frame) := by
  unfold demuxRejects
  infer_instance

/-- The demonstration Ethernet+IPv4+UDP frame of `send_packet.py`
(broadcast MAC, 192.168.0.1:12345 → 192.168.0.2:53, payload
"Hello World"). -/
def sample_raw_frame : List Nat :=
  [0xFF, 0xFF, 0xFF, 0xFF, 0xFF, 0xFF,
   0x00, 0x11, 0x22, 0x33, 0x44, 0x55,
   0x08, 0x00,
   0x45, 0x00, 0x00, 0x2c, 0x00, 0x01, 0x00, 0x00, 0x40, 0x11, 0xb8, 0x61,
   0xc0, 0xa8, 0x00, 0x01,
   0xc0, 0xa8, 0x00, 0x02,
   0x30, 0x39, 0x00, 0x35, 0x00, 0x18, 0x00, 0x00,
   0x48, 0x65, 0x6c, 0x6c, 0x6f, 0x20, 0x57, 0x6f, 0x72, 0x6c, 0x64]

/-! ## Frame codec (modelled from the spec, §4.1)

The repository delegates frame-level decode/encode to the external
`pymavlink` dependency (`backend/parsers/mavlink_parser.py` and
`mitm.py` only call it), so the codec itself is not under the
repository's sources.  It is modelled here from the spec's §4.1
decoding algorithm and data model. -/

/-- Modelled from the spec: one byte step of "the protocol's checksum
algorithm" (§4.1) — the X.25 / MCRF4XX CRC-16 the protocol uses; the
reference implementation lives in the external `pymavlink` package. -/
def crc_accumulate (b : Nat) (acc : Nat) : Nat :=
  let tmp := (b ^^^ (acc &&& 0xFF)) &&& 0xFF
  let tmp2 := (tmp ^^^ ((tmp <<< 4) &&& 0xFF)) &&& 0xFF
  ((acc >>> 8) ^^^ (tmp2 <<< 8) ^^^ (tmp2 <<< 3) ^^^ (tmp2 >>> 4)) &&& 0xFFFF

/-- CRC-16/X.25 over a byte list, seed `0xFFFF`. -/
def crc_calculate (bytes : List Nat) : Nat :=
  bytes.foldl (fun acc b => crc_accumulate b acc) 0xFFFF

/-- The spec's `ProtocolFrame` data model (§3). -/
structure ProtocolFrame where
  formatVersion : Nat
  sequence : Nat
  systemId : Nat
  componentId : Nat
  messageId : Nat
  payload : List Nat
  checksum : Nat
  signature : Option (List Nat)
deriving DecidableEq

/-- Frame decode failures: the spec's hard failure
`FrameError::Truncated`, plus a rejection for a buffer that does not
begin with either start-of-frame marker. -/
inductive FrameError where
  | Truncated
  | NoMarker
deriving DecidableEq

/-- Modelled from the spec: §4.1's decoding algorithm (the working
decoder is `pymavlink`'s, an external dependency): the start marker
picks the header layout (`0xFE` = version 1 short header with 8-bit
message id, `0xFD` = version 2 long header with 24-bit message id and
flag bytes); the declared payload length is read and exactly that many
payload bytes are sliced; the trailing 16-bit checksum is read
little-endian; ≥13 bytes left after a long-header frame's checksum are
a signature.  A buffer too short for header+payload+checksum is the
hard failure `Truncated`.  The checksum is extracted, never compared:
a mismatch cannot reject a frame here. -/
def decode (buf : List Nat) : Except FrameError ProtocolFrame :=
  match buf with
  | [] => .error .Truncated
  | magic :: _ =>
      if magic = 0xFE then
        let plen := buf.getD 1 0
        if buf.length < 6 + plen + 2 then .error .Truncated
        else .ok { formatVersion := 1, sequence := buf.getD 2 0,
                   systemId := buf.getD 3 0, componentId := buf.getD 4 0,
                   messageId := buf.getD 5 0,
                   payload := (buf.drop 6).take plen,
                   checksum := buf.getD (6 + plen) 0 +
                     256 * buf.getD (6 + plen + 1) 0,
                   signature := none }
      else if magic = 0xFD then
        let plen := buf.getD 1 0
        if buf.length < 10 + plen + 2 then .error .Truncated
        else .ok { formatVersion := 2, sequence := buf.getD 4 0,
                   systemId := buf.getD 5 0, componentId := buf.getD 6 0,
                   messageId := buf.getD 7 0 + 256 * buf.getD 8 0 +
                     65536 * buf.getD 9 0,
                   payload := (buf.drop 10).take plen,
                   checksum := buf.getD (10 + plen) 0 +
                     256 * buf.getD (10 + plen + 1) 0,
                   signature :=
                     if 10 + plen + 2 + 13 ≤ buf.length then
                       some ((buf.drop (10 + plen + 2)).take 13)
                     else none }
      else .error .NoMarker

/-- Modelled from the spec: a version-2 frame laid out around a given
(possibly wrong) stored checksum — long header with zeroed flag bytes,
the payload, and the 16-bit checksum little-endian; takeover frames are
deliberately unsigned (§4.1), so no signature is appended. -/
def encode_v2_with_checksum (seq sys comp msgid : Nat) (payload : List Nat)
    (ck : Nat) : List Nat :=
  0xFD :: payload.length % 256 :: 0 :: 0 :: seq % 256 :: sys % 256 ::
  comp % 256 :: msgid % 256 :: msgid / 256 % 256 :: msgid / 65536 % 256 ::
  (payload ++ [ck % 256, ck / 256 % 256])

/-! ## Typed message codec (modelled from the spec, §4.1)

Field extraction maps payload bytes to a typed field set per message id
using a closed per-message-id field table (name, offset, width, numeric
encoding); the working tables live in the external `pymavlink`
dependency, so they are modelled here.  Each field is modelled by the
byte width of its slot; a field value is the raw little-endian numeric
content of that slot, so "field values within the type's valid numeric
ranges" is `value < 256 ^ width`.  The closed supported set (§3) is
HEARTBEAT (0), LOCAL_POSITION_NED (32), GLOBAL_POSITION_INT (33),
SET_POSITION_TARGET_LOCAL_NED (84) and POSITION_TARGET_LOCAL_NED (85).
`build_sample_mavlink_stream` of `backend/parsers/mavlink_parser.py`
builds a HEARTBEAT with this table. -/

/-- The spec's `DecodedMessage`: a supported message id with its field
values in wire order. -/
structure DecodedMessage where
  msgid : Nat
  fields : List Nat
deriving DecidableEq

/-- Modelled from the spec: the closed per-message-id field table — for
each supported id, the byte widths of its fields in wire order
(largest-first, as the protocol lays them out):
 * 0 HEARTBEAT: `custom_mode u32`, then five `u8`s;
 * 32 LOCAL_POSITION_NED: `time_boot_ms u32` and six `f32` slots;
 * 33 GLOBAL_POSITION_INT: five 32-bit slots, then four 16-bit slots;
 * 84 SET_POSITION_TARGET_LOCAL_NED: `time_boot_ms u32`, eleven `f32`
   slots, `type_mask u16`, and three `u8`s;
 * 85 POSITION_TARGET_LOCAL_NED: as 84 without the two target ids. -/
def fieldTable (i : Nat) : Option (List Nat) :=
  if i = 0 then some [4, 1, 1, 1, 1, 1]
  else if i = 32 then some [4, 4, 4, 4, 4, 4, 4]
  else if i = 33 then some [4, 4, 4, 4, 4, 2, 2, 2, 2]
  else if i = 84 then some [4, 4, 4, 4, 4, 4, 4, 4, 4, 4, 4, 4, 2, 1, 1, 1]
  else if i = 85 then some [4, 4, 4, 4, 4, 4, 4, 4, 4, 4, 4, 4, 2, 1]
  else none

/-- Little-endian layout of one field value into `w` bytes. -/
def encodeField : Nat → Nat → List Nat
  | 0, _ => []
  | w + 1, v => v % 256 :: encodeField w (v / 256)

/-- Little-endian read of one `w`-byte field value. -/
def decodeFieldVal : Nat → List Nat → Nat
  | 0, _ => 0
  | _ + 1, [] => 0
  | w + 1, b :: rest => b + 256 * decodeFieldVal w rest

/-- Lay out all field values per the width table. -/
def encodeFields : List Nat → List Nat → List Nat
  | w :: ws, v :: vs => encodeField w v ++ encodeFields ws vs
  | _, _ => []

/-- Read all field values back per the width table. -/
def decodeFields : List Nat → List Nat → List Nat
  | [], _ => []
  | w :: ws, bytes => decodeFieldVal w bytes :: decodeFields ws (bytes.drop w)

/-- Modelled from the spec: the per-message checksum-extra byte the
protocol folds into the frame checksum (HEARTBEAT's is 50). -/
def crc_extra_of (i : Nat) : Nat :=
  if i = 0 then 50
  else if i = 32 then 185
  else if i = 33 then 104
  else if i = 84 then 143
  else if i = 85 then 140
  else 0

/-- Modelled from the spec: `encode(message, sessionContext)` — lay out
the payload per the message's field table, compute the version-2 header
bytes, and append the checksum recomputed over header (sans marker) +
payload + crc-extra; `none` for an id outside the closed set. -/
def encode_message (seq sys comp : Nat) (m : DecodedMessage) :
    Option (List Nat) :=
  match fieldTable m.msgid with
  | none => none
  | some ws =>
      some (encode_v2_with_checksum seq sys comp m.msgid
        (encodeFields ws m.fields)
        (crc_calculate
          ([(encodeFields ws m.fields).length % 256, 0, 0, seq % 256,
            sys % 256, comp % 256, m.msgid % 256, m.msgid / 256 % 256,
            m.msgid / 65536 % 256] ++ encodeFields ws m.fields ++
            [crc_extra_of m.msgid])))

/-- Field extraction from a decoded frame via the field table; an id
without a table, or a payload of the wrong size, gets no structured
extraction. -/
def decode_typed (f : ProtocolFrame) : Option DecodedMessage :=
  match fieldTable f.messageId with
  | none => none
  | some ws =>
      if f.payload.length = ws.sum then
        some ⟨f.messageId, decodeFields ws f.payload⟩
      else none

/-- Frame decode chained with typed field extraction. -/
def decode_stream (buf : List Nat) : Option DecodedMessage :=
  match decode buf with
  | .ok f => decode_typed f
  | .error _ => none

/-- A decoded HEARTBEAT, fields in the order the sample builder passes
them. -/
structure Heartbeat where
  type : Nat
  autopilot : Nat
  base_mode : Nat
  custom_mode : Nat
  system_status : Nat
  mavlink_version : Nat
deriving DecidableEq

/-- Modelled from the spec: the HEARTBEAT field table applied to a
message, giving the 9 payload bytes. -/
def heartbeat_payload (h : Heartbeat) : List Nat :=
  [h.custom_mode % 256, h.custom_mode / 256 % 256,
   h.custom_mode / 65536 % 256, h.custom_mode / 16777216 % 256,
   h.type % 256, h.autopilot % 256, h.base_mode % 256,
   h.system_status % 256, h.mavlink_version % 256]

/-- The per-message checksum-extra byte for HEARTBEAT. -/
def HEARTBEAT_CRC_EXTRA : Nat := 50

/-- Modelled from the spec: the HEARTBEAT instance of the encoder, as
the sample builder exercises it. -/
def encode_heartbeat (seq sys comp : Nat) (h : Heartbeat) : List Nat :=
  encode_v2_with_checksum seq sys comp 0 (heartbeat_payload h)
    (crc_calculate
      ([(heartbeat_payload h).length % 256, 0, 0, seq % 256, sys % 256,
        comp % 256, 0, 0, 0] ++ heartbeat_payload h ++ [HEARTBEAT_CRC_EXTRA]))

/-- `build_sample_mavlink_stream` of
`backend/parsers/mavlink_parser.py`: a HEARTBEAT with
`type = MAV_TYPE_QUADROTOR (2)`,
`autopilot = MAV_AUTOPILOT_ARDUPILOTMEGA (3)`, `base_mode = 0`,
`custom_mode = 0`, `system_status = 0`, `mavlink_version = 3`, packed
by a sender with `srcSystem = 1`, `srcComponent = 1` (first frame, so
sequence 0). -/
def build_sample_mavlink_stream : List Nat :=
  encode_heartbeat 0 1 1
    { type := 2, autopilot := 3, base_mode := 0, custom_mode := 0,
      system_status := 0, mavlink_version := 3 }

/-! ## Theorems -/

/-- Splitting a fed sequence splits the collected outcomes. -/
theorem runObserve_append (st : DedupState) (xs ys : List Pos) :
    runObserve st (xs ++ ys) =
      ((runObserve st xs).1 ++ (runObserve (runObserve st xs).2 ys).1,
       (runObserve (runObserve st xs).2 ys).2) := by
  induction xs generalizing st with
  | nil => simp [runObserve]
  | cons p ps ih =>
      simp only [List.cons_append, runObserve, List.append_eq]
      rw [ih]

/-- Feeding `m` further copies of the already-stored position produces
`repeated (k+1), …, repeated (k+m)` and leaves the counter at `k+m`. -/
theorem runObserve_replicate_same (m k : Nat) (a : Pos) :
    runObserve ⟨some a, k⟩ (List.replicate m a) =
      ((List.range m).map (fun i => .repeated (k + i + 1)), ⟨some a, k + m⟩) := by
  induction m generalizing k with
  | zero => simp [runObserve]
  | succ n ih =>
      rw [List.replicate_succ, List.range_succ_eq_map]
      simp only [runObserve, observe, if_pos rfl, ite_true, eq_self_iff_true,
        List.map_cons]
      rw [ih (k + 1)]
      simp only [List.map_cons, List.map_map, Prod.mk.injEq, List.cons.injEq,
        DedupOutcome.repeated.injEq, DedupState.mk.injEq, true_and]
      refine ⟨?_, by omega⟩
      apply List.map_congr_left
      intro i _
      simp only [Function.comp_apply, DedupOutcome.repeated.injEq]
      omega

/-- Unfolding lemma for `runObserve` on a cons cell. -/
theorem runObserve_cons (st : DedupState) (p : Pos) (ps : List Pos) :
    runObserve st (p :: ps) =
      ((observe st p).1 :: (runObserve (observe st p).2 ps).1,
       (runObserve (observe st p).2 ps).2) := rfl

/-- C3: starting from empty dedup state, feeding the same signature `N`
times yields `firstSeen` once then `repeated 1 … repeated (N-1)`; a
different signature afterwards yields `changed (N-1)`, resets the repeat
count to 0 and stores the new signature. -/
theorem dedup_firstSeen_repeated_changed (N : Nat) (a b : Pos)
    (hN : 1 ≤ N) (hab : a ≠ b) :
    runObserve ⟨none, 0⟩ (List.replicate N a ++ [b]) =
      (DedupOutcome.firstSeen ::
        ((List.range (N - 1)).map (fun i => .repeated (i + 1)) ++
          [.changed (N - 1)]),
       ⟨some b, 0⟩) := by
  obtain ⟨n, rfl⟩ : ∃ n, N = n + 1 := ⟨N - 1, by omega⟩
  rw [List.replicate_succ, List.cons_append, runObserve_cons]
  have hobs : observe ⟨none, 0⟩ a = (DedupOutcome.firstSeen, ⟨some a, 0⟩) := rfl
  rw [hobs]
  rw [runObserve_append, runObserve_replicate_same n 0 a]
  have hb : runObserve (⟨some a, 0 + n⟩ : DedupState) [b] =
      ([DedupOutcome.changed (0 + n)], ⟨some b, 0⟩) := by
    simp only [runObserve, observe]
    rw [if_neg (fun h => hab h.symm)]
  rw [hb]
  simp only [Nat.zero_add, Nat.add_sub_cancel]

/-- Witness for C3 at `N = 3` with two concrete distinct positions. -/
theorem dedup_firstSeen_repeated_changed_witness :
    runObserve ⟨none, 0⟩
        (List.replicate 3 ((1 : ℚ), (2 : ℚ), (3 : ℚ)) ++ [((4 : ℚ), (5 : ℚ), (6 : ℚ))]) =
      (DedupOutcome.firstSeen ::
        ((List.range 2).map (fun i => .repeated (i + 1)) ++ [.changed 2]),
       ⟨some ((4 : ℚ), (5 : ℚ), (6 : ℚ)), 0⟩) :=
  dedup_firstSeen_repeated_changed 3 (1, 2, 3) (4, 5, 6) (by norm_num) (by decide)

/-- The post-step window: the gap is appended and, exactly at capacity
40, the oldest (head) entry is evicted. -/
theorem recordArrival_intervals (st : FreqState) (now : ℚ)
    (hprev : 0 < st.lastSetpointTime) (hcap : st.intervals.length ≤ 40) :
    (recordArrival st now).intervals =
      if st.intervals.length = 40 then
        st.intervals.tail ++ [now - st.lastSetpointTime]
      else st.intervals ++ [now - st.lastSetpointTime] := by
  simp only [recordArrival, if_pos hprev]
  by_cases h40 : st.intervals.length = 40
  · have htl : st.intervals ≠ [] := by
      intro h; rw [h] at h40; simp at h40
    obtain ⟨hd, tl, hcons⟩ := List.exists_cons_of_ne_nil htl
    rw [if_pos h40, if_pos (by simp [h40])]
    rw [hcons]
    rfl
  · rw [if_neg h40, if_neg (by simp; omega)]

/-- The post-step estimate is recomputed from the post-step window when
it holds ≥ 3 entries and has positive mean, and is kept otherwise. -/
theorem recordArrival_learnedHz (st : FreqState) (now : ℚ)
    (hprev : 0 < st.lastSetpointTime) :
    (recordArrival st now).learnedHz =
      if 3 ≤ (recordArrival st now).intervals.length then
        if 0 < (recordArrival st now).intervals.sum /
            ((recordArrival st now).intervals.length : ℚ) then
          some (1 / ((recordArrival st now).intervals.sum /
            ((recordArrival st now).intervals.length : ℚ)))
        else st.learnedHz
      else st.learnedHz := by
  simp only [recordArrival, if_pos hprev]

/-- C6: for a call after the first arrival with the window within
capacity: the gap `now - previous` is appended (evicting the head at
capacity 40), the window never exceeds 40 entries, and — once ≥ 3
intervals are held — the estimate becomes the reciprocal of the mean of
the held intervals unless that mean is zero or negative, in which case
the previous estimate is kept. -/
theorem recordArrival_spec (st : FreqState) (now : ℚ)
    (hprev : 0 < st.lastSetpointTime) (hcap : st.intervals.length ≤ 40) :
    (recordArrival st now).intervals.length ≤ 40 ∧
    (st.intervals.length < 40 →
      (recordArrival st now).intervals =
        st.intervals ++ [now - st.lastSetpointTime]) ∧
    (st.intervals.length = 40 →
      (recordArrival st now).intervals =
        st.intervals.tail ++ [now - st.lastSetpointTime]) ∧
    (3 ≤ (recordArrival st now).intervals.length →
      ((0 < (recordArrival st now).intervals.sum /
            ((recordArrival st now).intervals.length : ℚ) →
         (recordArrival st now).learnedHz =
           some (1 / ((recordArrival st now).intervals.sum /
             ((recordArrival st now).intervals.length : ℚ)))) ∧
       ((recordArrival st now).intervals.sum /
            ((recordArrival st now).intervals.length : ℚ) ≤ 0 →
         (recordArrival st now).learnedHz = st.learnedHz))) ∧
    ((recordArrival st now).intervals.length < 3 →
      (recordArrival st now).learnedHz = st.learnedHz) := by
  have hints := recordArrival_intervals st now hprev hcap
  have hhz := recordArrival_learnedHz st now hprev
  refine ⟨?_, ?_, ?_, ?_, ?_⟩
  · rw [hints]
    by_cases h40 : st.intervals.length = 40
    · rw [if_pos h40]
      simp [List.length_tail, h40]
    · rw [if_neg h40]
      simp
      omega
  · intro hlt
    rw [hints, if_neg (by omega)]
  · intro h40
    rw [hints, if_pos h40]
  · intro h3
    constructor
    · intro hpos
      rw [hhz, if_pos h3, if_pos hpos]
    · intro hneg
      rw [hhz, if_pos h3, if_neg (not_lt.mpr hneg)]
  · intro h3
    rw [hhz, if_neg (by omega)]

/-- Witness for C6: state with two held intervals and an estimate, third
arrival at `t = 11` after `t = 10`; the window grows to three `1`-second
gaps and the estimate becomes `1` Hz. -/
theorem recordArrival_spec_witness :
    (recordArrival ⟨[1, 1], some 5, 10⟩ 11).intervals.length ≤ 40 ∧
    (([1, 1] : List ℚ).length < 40 →
      (recordArrival ⟨[1, 1], some 5, 10⟩ 11).intervals =
        [1, 1] ++ [(11 : ℚ) - 10]) ∧
    (([1, 1] : List ℚ).length = 40 →
      (recordArrival ⟨[1, 1], some 5, 10⟩ 11).intervals =
        ([1, 1] : List ℚ).tail ++ [(11 : ℚ) - 10]) ∧
    (3 ≤ (recordArrival ⟨[1, 1], some 5, 10⟩ 11).intervals.length →
      ((0 < (recordArrival ⟨[1, 1], some 5, 10⟩ 11).intervals.sum /
            ((recordArrival ⟨[1, 1], some 5, 10⟩ 11).intervals.length : ℚ) →
         (recordArrival ⟨[1, 1], some 5, 10⟩ 11).learnedHz =
           some (1 / ((recordArrival ⟨[1, 1], some 5, 10⟩ 11).intervals.sum /
             ((recordArrival ⟨[1, 1], some 5, 10⟩ 11).intervals.length : ℚ)))) ∧
       ((recordArrival ⟨[1, 1], some 5, 10⟩ 11).intervals.sum /
            ((recordArrival ⟨[1, 1], some 5, 10⟩ 11).intervals.length : ℚ) ≤ 0 →
         (recordArrival ⟨[1, 1], some 5, 10⟩ 11).learnedHz = some 5))) ∧
    ((recordArrival ⟨[1, 1], some 5, 10⟩ 11).intervals.length < 3 →
      (recordArrival ⟨[1, 1], some 5, 10⟩ 11).learnedHz = some 5) :=
  recordArrival_spec ⟨[1, 1], some 5, 10⟩ 11 (by norm_num) (by decide)

/-- C10: for every requested rate — including zero, negative and
sub-`0.1` values — the emission period equals `1 / max(0.1, hz)`, so it
is always positive and at most 10 seconds; the division is never by
zero because its divisor is at least `0.1`. -/
theorem injector_period_safe (hz : ℚ) :
    injector_period hz = 1 / max (1/10) hz ∧
    (1/10 : ℚ) ≤ max (1/10) hz ∧
    0 < injector_period hz ∧ injector_period hz ≤ 10 := by
  have hmax : (1/10 : ℚ) ≤ max (1/10) hz := le_max_left _ _
  have hpos : (0 : ℚ) < max (1/10) hz := lt_of_lt_of_le (by norm_num) hmax
  refine ⟨rfl, hmax, ?_, ?_⟩
  · exact div_pos one_pos hpos
  · rw [injector_period, div_le_iff₀ hpos]
    nlinarith [hmax]

theorem takeoverInv_init : TakeoverInv takeoverInit := by
  constructor <;> intro h <;> simp [takeoverInit] at h

theorem takeoverInv_step {s t : TakeoverState}
    (hstep : TakeoverStep s t) (hinv : TakeoverInv s) : TakeoverInv t := by
  obtain ⟨h1, h2⟩ := hinv
  cases hstep with
  | setTakingOver h =>
      refine ⟨fun hn => ?_, fun hp => ?_⟩
      · exact absurd (h1 hn) (by omega)
      · exact absurd (show (3 : Nat) ≤ 1 from hp) (by decide)
  | signalStop h =>
      refine ⟨fun hn => ?_, fun hp => ?_⟩
      · exact absurd (h1 hn) (by omega)
      · exact absurd (show (3 : Nat) ≤ 2 from hp) (by decide)
  | joinOld h hstopped =>
      exact ⟨fun hn => absurd (h1 hn) (by omega), fun _ => hstopped⟩
  | clearStop h =>
      exact ⟨fun hn => absurd (h1 hn) (by omega), fun _ => h2 (by omega)⟩
  | startNew h =>
      exact ⟨fun _ => rfl, fun _ => h2 (by omega)⟩
  | injectorSeesStop hrun hstop =>
      exact ⟨h1, fun _ => rfl⟩
  | injectorSeesNoTakeover hrun hto =>
      exact ⟨h1, fun _ => rfl⟩
  | injectorEmits hrun hstop hto =>
      exact ⟨h1, h2⟩

theorem takeoverInv_reachable {s : TakeoverState}
    (h : TakeoverReachable s) : TakeoverInv s := by
  induction h with
  | refl => exact takeoverInv_init
  | tail _ hstep ih => exact takeoverInv_step hstep ih

/-- C2: in every state reachable under any interleaving of the
replacement block with the previous injector, it never happens that the
previous injector is still running while the replacement injector has
been started: at most one injector runs at every instant, because the
old thread is signalled and joined strictly before the new one starts. -/
theorem injector_exclusivity {s : TakeoverState}
    (h : TakeoverReachable s) :
    ¬(s.oldInjector = .running ∧ s.newStarted = true) := by
  rintro ⟨hrun, hnew⟩
  obtain ⟨h1, h2⟩ := takeoverInv_reachable h
  have h5 := h1 hnew
  have := h2 (by omega)
  rw [this] at hrun
  exact InjStatus.noConfusion hrun

/-- Witness for C2 at the initial state (reachable by the empty run). -/
theorem injector_exclusivity_witness :
    ¬(takeoverInit.oldInjector = .running ∧ takeoverInit.newStarted = true) :=
  injector_exclusivity Relation.ReflTransGen.refl

/-- C1 (counterexample): in end-to-end scenario A the controller sends
`SET_POSITION_TARGET_LOCAL_NED(x=1.0, y=2.0, z=-3.0)` three times
identically while the operator keeps every value; the PX4-facing socket
receives the frame three times, not once — `mitm.py` forwards a
repeated setpoint whenever `taking_over` is false (lines 392-398). -/
theorem scenario_a_three_frames_counterexample :
    (runCtrl routerInit threeIdenticalScenario).map Prod.snd = Except.ok 3 ∧
    (runCtrl routerInit threeIdenticalScenario).map Prod.snd ≠ Except.ok 1 := by
  have h : (runCtrl routerInit threeIdenticalScenario).map Prod.snd =
      Except.ok 3 := by with_unfolding_all rfl
  refine ⟨h, ?_⟩
  rw [h]
  simp

/-- C1 (amended): a controller datagram whose selected setpoint has the
signature already stored in `last_sig` is forwarded to the vehicle
exactly when takeover is not active: never while Active, always while
in Passthrough.  (The frequency window is still fed either way.) -/
theorem repeated_setpoint_forward_iff_passthrough
    (st : RouterState) (msgs : List CtrlMsg) (now : ℚ)
    (inX inY inAlt : String) (t : SpType) (x y z yaw : Option ℚ)
    (hfind : findSetpoint msgs = some (.setpoint t x y z yaw))
    (hsig : st.lastSig = some (msg_sig t x y z yaw)) :
    ctrlStep st msgs now inX inY inAlt =
      .ok ({ st with freq := recordArrival st.freq now }, !st.takingOver) := by
  have heq : ctrlStep st msgs now inX inY inAlt =
      ctrlStepSetpoint st t x y z yaw now inX inY inAlt := by
    unfold ctrlStep
    rw [hfind]
  rw [heq]
  simp only [ctrlStepSetpoint]
  rw [if_neg (not_not_intro hsig.symm)]

/-- Witness for the amended C1: while Active, a repeated setpoint
datagram is observed (frequency update) but not forwarded. -/
theorem repeated_setpoint_forward_iff_passthrough_witness :
    ctrlStep activeRepeatState [sampleSetpointMsg] 5 "" "" "" =
      .ok ({ activeRepeatState with
             freq := recordArrival activeRepeatState.freq 5 }, false) :=
  repeated_setpoint_forward_iff_passthrough activeRepeatState
    [sampleSetpointMsg] 5 "" "" "" .setPositionTargetLocalNed
    (some 1) (some 2) (some (-3)) (some 0) rfl rfl

/-- C4 (counterexample): a controller datagram from which the parser
recovers no message is forwarded to the vehicle, not dropped —
`mitm.py` lines 399-403 send any datagram without a tracked setpoint
onward unchanged. -/
theorem undecodable_datagram_forwarded_counterexample :
    ctrlStep routerInit [] 1 "" "" "" = .ok (routerInit, true) ∧
    ctrlStep routerInit [] 1 "" "" "" ≠ .ok (routerInit, false) := by
  have h : ctrlStep routerInit [] 1 "" "" "" = .ok (routerInit, true) := by
    with_unfolding_all rfl
  refine ⟨h, ?_⟩
  rw [h]
  simp

/-- C4 (amended): a controller datagram without a recovered setpoint —
in particular one whose decode fails outright, recovering nothing — is
forwarded unconditionally to the vehicle with the router state
untouched; the loop simply continues. -/
theorem no_recovered_setpoint_forwarded
    (st : RouterState) (msgs : List CtrlMsg) (now : ℚ)
    (inX inY inAlt : String) (hfind : findSetpoint msgs = none) :
    ctrlStep st msgs now inX inY inAlt = .ok (st, true) := by
  unfold ctrlStep
  rw [hfind]

/-- Witness for the amended C4 at an empty parse result. -/
theorem no_recovered_setpoint_forwarded_witness :
    ctrlStep routerInit [] 1 "" "" "" = .ok (routerInit, true) :=
  no_recovered_setpoint_forwarded routerInit [] 1 "" "" "" rfl

/-- C5 (counterexample): the non-blank, non-numeric override answer
`"abc"` does not keep the original value `1.0`: `float("abc")` raises an
uncaught `ValueError` that aborts the processing loop. -/
theorem nonnumeric_override_counterexample :
    overrideValue "abc" (some 1) = .error () ∧
    overrideValue "abc" (some 1) ≠ .ok (some 1) := by
  have h : overrideValue "abc" (some 1) = .error () := by
    with_unfolding_all rfl
  refine ⟨h, ?_⟩
  rw [h]
  simp

/-- C5 (amended): only a blank override answer keeps the original
value; a non-blank answer is parsed by `float`, yielding the parsed
value on success and an uncaught `ValueError` — which aborts the
datagram-processing loop — on failure. -/
theorem override_blank_keeps_nonblank_parses (s : String) (orig : Option ℚ) :
    (s.isEmpty = true → overrideValue s orig = .ok orig) ∧
    (s.isEmpty = false → pyFloat? s = none → overrideValue s orig = .error ()) ∧
    (∀ v : ℚ, s.isEmpty = false → pyFloat? s = some v →
      overrideValue s orig = .ok (some v)) := by
  refine ⟨fun h => ?_, fun h hp => ?_, fun v h hp => ?_⟩
  · unfold overrideValue
    rw [if_pos h]
  · unfold overrideValue
    rw [if_neg (by simp [h]), hp]
  · unfold overrideValue
    rw [if_neg (by simp [h]), hp]

/-- Witness for the amended C5 at the non-numeric answer `"abc"`. -/
theorem override_blank_keeps_nonblank_parses_witness :
    overrideValue "abc" (some (2 : ℚ)) = .error () :=
  (override_blank_keeps_nonblank_parses "abc" (some 2)).2.1 rfl rfl

/-- C7: the demultiplexer returns `none` exactly on the claim's
rejection condition; otherwise it returns the link info, the source and
destination IP and port, and the UDP payload, read at the declared
offsets. -/
theorem parse_ethernet_ipv4_udp_none_iff (frame : List Nat) :
    (parse_ethernet_ipv4_udp frame = none ↔ demuxRejects frame) ∧
    (¬demuxRejects frame →
      parse_ethernet_ipv4_udp frame =
        some ⟨⟨frame.take 6, (frame.drop 6).take 6, ethTypeOf frame⟩,
          (frame.drop 26).take 4,
          256 * frame.getD (14 + ihlOf frame) 0 +
            frame.getD (14 + ihlOf frame + 1) 0,
          (frame.drop 30).take 4,
          256 * frame.getD (14 + ihlOf frame + 2) 0 +
            frame.getD (14 + ihlOf frame + 3) 0,
          frame.drop (14 + ihlOf frame + 8)⟩) := by
  constructor
  · unfold parse_ethernet_ipv4_udp demuxRejects
    split_ifs <;> simp_all
    omega
  · intro h
    unfold demuxRejects at h
    push_neg at h
    obtain ⟨h1, h2, h3, h4, h5, h6⟩ := h
    unfold parse_ethernet_ipv4_udp
    rw [if_neg (by omega), if_neg (not_not_intro h2), if_neg (by omega),
      if_neg (by omega), if_neg (not_not_intro h5), if_neg (by omega),
      if_neg (by omega)]

/-- Witness for C7 on the `send_packet.py` frame, which is accepted. -/
theorem parse_ethernet_ipv4_udp_none_iff_witness :
    parse_ethernet_ipv4_udp sample_raw_frame =
      some ⟨⟨sample_raw_frame.take 6, (sample_raw_frame.drop 6).take 6,
          ethTypeOf sample_raw_frame⟩,
        (sample_raw_frame.drop 26).take 4,
        256 * sample_raw_frame.getD (14 + ihlOf sample_raw_frame) 0 +
          sample_raw_frame.getD (14 + ihlOf sample_raw_frame + 1) 0,
        (sample_raw_frame.drop 30).take 4,
        256 * sample_raw_frame.getD (14 + ihlOf sample_raw_frame + 2) 0 +
          sample_raw_frame.getD (14 + ihlOf sample_raw_frame + 3) 0,
        sample_raw_frame.drop (14 + ihlOf sample_raw_frame + 8)⟩ :=
  (parse_ethernet_ipv4_udp_none_iff sample_raw_frame).2 (by decide)

/-- Each accumulation step stays below `2^16`. -/
theorem crc_accumulate_lt (b acc : Nat) : crc_accumulate b acc < 65536 := by
  unfold crc_accumulate
  exact lt_of_le_of_lt Nat.and_le_right (by norm_num)

/-- The computed checksum is a 16-bit value. -/
theorem crc_calculate_lt (bytes : List Nat) : crc_calculate bytes < 65536 := by
  unfold crc_calculate
  have h : ∀ (l : List Nat) (acc : Nat), acc < 65536 →
      l.foldl (fun acc b => crc_accumulate b acc) acc < 65536 := by
    intro l
    induction l with
    | nil => intro acc hacc; simpa using hacc
    | cons b bs ih =>
        intro acc hacc
        simpa using ih (crc_accumulate b acc) (crc_accumulate_lt b acc)
  exact h _ _ (by norm_num)

theorem decode_fd (tl : List Nat) :
    decode (0xFD :: tl) =
      (if (0xFD :: tl).length < 10 + (0xFD :: tl).getD 1 0 + 2 then
        Except.error FrameError.Truncated
      else
        Except.ok
          { formatVersion := 2,
            sequence := (0xFD :: tl).getD 4 0,
            systemId := (0xFD :: tl).getD 5 0,
            componentId := (0xFD :: tl).getD 6 0,
            messageId := (0xFD :: tl).getD 7 0 + 256 * (0xFD :: tl).getD 8 0 +
              65536 * (0xFD :: tl).getD 9 0,
            payload := ((0xFD :: tl).drop 10).take ((0xFD :: tl).getD 1 0),
            checksum := (0xFD :: tl).getD (10 + (0xFD :: tl).getD 1 0) 0 +
              256 * (0xFD :: tl).getD (10 + (0xFD :: tl).getD 1 0 + 1) 0,
            signature :=
              if 10 + (0xFD :: tl).getD 1 0 + 2 + 13 ≤ (0xFD :: tl).length then
                some (((0xFD :: tl).drop (10 + (0xFD :: tl).getD 1 0 + 2)).take 13)
              else none }) := rfl

theorem getD_cons10_shift (b0 b1 b2 b3 b4 b5 b6 b7 b8 b9 : Nat)
    (l : List Nat) (n d : Nat) :
    (b0 :: b1 :: b2 :: b3 :: b4 :: b5 :: b6 :: b7 :: b8 :: b9 :: l).getD
      (n + 10) d = l.getD n d := by
  iterate 10 rw [List.getD_cons_succ]

theorem getD_cons9_shift (b1 b2 b3 b4 b5 b6 b7 b8 b9 : Nat)
    (l : List Nat) (n d : Nat) :
    (b1 :: b2 :: b3 :: b4 :: b5 :: b6 :: b7 :: b8 :: b9 :: l).getD
      (n + 9) d = l.getD n d := by
  iterate 9 rw [List.getD_cons_succ]

theorem decode_encode_v2 (seq sys comp msgid : Nat) (payload : List Nat)
    (ck : Nat) (hseq : seq < 256) (hsys : sys < 256) (hcomp : comp < 256)
    (hmsg : msgid < 16777216) (hplen : payload.length < 256)
    (hck : ck < 65536) :
    decode (encode_v2_with_checksum seq sys comp msgid payload ck) =
      .ok { formatVersion := 2, sequence := seq, systemId := sys,
            componentId := comp, messageId := msgid, payload := payload,
            checksum := ck, signature := none } := by
  have hL : payload.length % 256 = payload.length := Nat.mod_eq_of_lt hplen
  have henc : encode_v2_with_checksum seq sys comp msgid payload ck =
      0xFD :: payload.length % 256 :: 0 :: 0 :: seq % 256 :: sys % 256 ::
      comp % 256 :: msgid % 256 :: msgid / 256 % 256 :: msgid / 65536 % 256 ::
      (payload ++ [ck % 256, ck / 256 % 256]) := rfl
  rw [henc, decode_fd]
  simp only [List.getD_cons_zero, List.getD_cons_succ, List.length_cons,
    List.length_append, List.length_nil, List.drop_succ_cons, List.drop_zero, hL]
  rw [if_neg (by omega)]
  rw [List.take_left]
  rw [show (10 : Nat) + payload.length = payload.length + 10 from by omega]
  rw [getD_cons10_shift]
  rw [show payload.length + 10 = payload.length + 1 + 9 from by omega]
  rw [getD_cons9_shift]
  rw [List.getD_append_right payload [ck % 256, ck / 256 % 256] 0
    payload.length (le_refl _)]
  rw [Nat.sub_self]
  rw [List.getD_append_right payload [ck % 256, ck / 256 % 256] 0
    (payload.length + 1) (by omega)]
  rw [show payload.length + 1 - payload.length = 1 from by omega]
  rw [if_neg (by omega)]
  simp only [List.getD_cons_zero, List.getD_cons_succ]
  simp only [Except.ok.injEq, ProtocolFrame.mk.injEq]
  refine ⟨trivial, by omega, by omega, by omega, by omega, trivial, by omega, trivial⟩

/-- C8: a version-2 buffer holding a complete header+payload+checksum
decodes successfully with the stored 16-bit checksum surfaced as-is —
whatever value it is, so a mismatch is never a fatal error but material
for a downstream low-confidence tag — while a buffer too short for its
declared payload plus header and checksum is the hard decode failure
`Truncated`. -/
theorem checksum_mismatch_never_fatal
    (seq sys comp msgid : Nat) (payload : List Nat) (ck : Nat)
    (hseq : seq < 256) (hsys : sys < 256) (hcomp : comp < 256)
    (hmsg : msgid < 16777216) (hplen : payload.length < 256)
    (hck : ck < 65536) :
    decode (encode_v2_with_checksum seq sys comp msgid payload ck) =
      .ok { formatVersion := 2, sequence := seq, systemId := sys,
            componentId := comp, messageId := msgid, payload := payload,
            checksum := ck, signature := none } ∧
    (∀ buf : List Nat, buf ≠ [] → buf.getD 0 0 = 0xFD →
      buf.length < 10 + buf.getD 1 0 + 2 →
      decode buf = .error .Truncated) := by
  refine ⟨decode_encode_v2 seq sys comp msgid payload ck hseq hsys hcomp
    hmsg hplen hck, ?_⟩
  intro buf hne h0 hlen
  cases buf with
  | nil => exact absurd rfl hne
  | cons m tl =>
      have hm : m = 0xFD := by simpa using h0
      subst hm
      rw [decode_fd, if_pos hlen]

/-- Witness for C8: a short frame with payload `[1, 2, 3]` and the
(wrong for this frame) stored checksum `0` still decodes, surfacing
checksum `0`. -/
theorem checksum_mismatch_never_fatal_witness :
    decode (encode_v2_with_checksum 7 1 1 0 [1, 2, 3] 0) =
      .ok { formatVersion := 2, sequence := 7, systemId := 1,
            componentId := 1, messageId := 0, payload := [1, 2, 3],
            checksum := 0, signature := none } :=
  (checksum_mismatch_never_fatal 7 1 1 0 [1, 2, 3] 0 (by norm_num)
    (by norm_num) (by norm_num) (by norm_num) (by norm_num) (by norm_num)).1

/-- A `w`-wide field always occupies exactly `w` bytes. -/
theorem encodeField_length (w v : Nat) : (encodeField w v).length = w := by
  induction w generalizing v with
  | zero => rfl
  | succ n ih => simp [encodeField, ih]

/-- Reading a laid-out field back returns the value, for values within
the field's numeric range. -/
theorem decodeFieldVal_encodeField (w v : Nat) (tail : List Nat)
    (h : v < 256 ^ w) :
    decodeFieldVal w (encodeField w v ++ tail) = v := by
  induction w generalizing v with
  | zero =>
      simp only [encodeField, List.nil_append, decodeFieldVal]
      simp only [pow_zero] at h
      omega
  | succ n ih =>
      simp only [encodeField, List.cons_append, List.append_eq, decodeFieldVal]
      rw [ih (v / 256) (by rw [pow_succ] at h; omega)]
      omega

/-- The laid-out payload has exactly the table's total width. -/
theorem encodeFields_length {ws vs : List Nat}
    (h : List.Forall₂ (fun w v => v < 256 ^ w) ws vs) :
    (encodeFields ws vs).length = ws.sum := by
  induction h with
  | nil => rfl
  | cons hv htl ih =>
      simp [encodeFields, encodeField_length, ih]

/-- Reading all fields back from a laid-out payload returns the
original values, for values within their fields' numeric ranges. -/
theorem decodeFields_encodeFields {ws vs : List Nat}
    (h : List.Forall₂ (fun w v => v < 256 ^ w) ws vs) :
    decodeFields ws (encodeFields ws vs) = vs := by
  have hdl : ∀ (l₁ l₂ : List Nat) (n : Nat), l₁.length = n →
      (l₁ ++ l₂).drop n = l₂ := by
    intro l₁ l₂ n hn
    subst hn
    exact List.drop_left _ _
  induction h with
  | nil => rfl
  | cons hv htl ih =>
      simp only [encodeFields, decodeFields]
      rw [decodeFieldVal_encodeField _ _ _ hv,
        hdl _ _ _ (encodeField_length _ _), ih]

/-- Every supported message id is below `2^24` and its payload fits the
one-byte length field. -/
theorem fieldTable_bounds {i : Nat} {ws : List Nat}
    (h : fieldTable i = some ws) : i < 16777216 ∧ ws.sum < 256 := by
  unfold fieldTable at h
  split_ifs at h with h0 h32 h33 h84 h85
  · obtain rfl : ws = [4, 1, 1, 1, 1, 1] := by simpa using h.symm
    exact ⟨by omega, by decide⟩
  · obtain rfl : ws = [4, 4, 4, 4, 4, 4, 4] := by simpa using h.symm
    exact ⟨by omega, by decide⟩
  · obtain rfl : ws = [4, 4, 4, 4, 4, 2, 2, 2, 2] := by simpa using h.symm
    exact ⟨by omega, by decide⟩
  · obtain rfl : ws = [4, 4, 4, 4, 4, 4, 4, 4, 4, 4, 4, 4, 2, 1, 1, 1] := by
      simpa using h.symm
    exact ⟨by omega, by decide⟩
  · obtain rfl : ws = [4, 4, 4, 4, 4, 4, 4, 4, 4, 4, 4, 4, 2, 1] := by
      simpa using h.symm
    exact ⟨by omega, by decide⟩

/-- Unfolding lemma for `encode_message` on a supported id. -/
theorem encode_message_eq {m : DecodedMessage} {ws : List Nat}
    (h : fieldTable m.msgid = some ws) (seq sys comp : Nat) :
    encode_message seq sys comp m =
      some (encode_v2_with_checksum seq sys comp m.msgid
        (encodeFields ws m.fields)
        (crc_calculate
          ([(encodeFields ws m.fields).length % 256, 0, 0, seq % 256,
            sys % 256, comp % 256, m.msgid % 256, m.msgid / 256 % 256,
            m.msgid / 65536 % 256] ++ encodeFields ws m.fields ++
            [crc_extra_of m.msgid]))) := by
  unfold encode_message
  rw [h]

/-- Unfolding lemma for `decode_typed` on a supported id. -/
theorem decode_typed_eq {f : ProtocolFrame} {ws : List Nat}
    (h : fieldTable f.messageId = some ws) :
    decode_typed f =
      (if f.payload.length = ws.sum then
        some ⟨f.messageId, decodeFields ws f.payload⟩
      else none) := by
  unfold decode_typed
  rw [h]

/-- Unfolding lemma for `decode_stream` on a successful frame decode. -/
theorem decode_stream_ok {buf : List Nat} {f : ProtocolFrame}
    (h : decode buf = .ok f) : decode_stream buf = decode_typed f := by
  unfold decode_stream
  rw [h]

/-- C9: for every supported message type — HEARTBEAT,
LOCAL_POSITION_NED, GLOBAL_POSITION_INT, SET_POSITION_TARGET_LOCAL_NED
and POSITION_TARGET_LOCAL_NED, the closed set carried by `fieldTable` —
and field values within each field's numeric range, decoding an encoded
message returns the original message. -/
theorem supported_roundtrip (seq sys comp : Nat) (m : DecodedMessage)
    (ws : List Nat) (hseq : seq < 256) (hsys : sys < 256)
    (hcomp : comp < 256) (htable : fieldTable m.msgid = some ws)
    (hin : List.Forall₂ (fun w v => v < 256 ^ w) ws m.fields) :
    (encode_message seq sys comp m).bind decode_stream = some m := by
  obtain ⟨hid, hsum⟩ := fieldTable_bounds htable
  have hlen : (encodeFields ws m.fields).length = ws.sum :=
    encodeFields_length hin
  have hplen : (encodeFields ws m.fields).length < 256 := by omega
  rw [encode_message_eq htable, Option.some_bind]
  rw [decode_stream_ok (decode_encode_v2 seq sys comp m.msgid
    (encodeFields ws m.fields) _ hseq hsys hcomp hid hplen
    (crc_calculate_lt _))]
  rw [decode_typed_eq htable]
  rw [if_pos hlen]
  simp only [decodeFields_encodeFields hin]

/-- Witness for C9 at the sample builder's HEARTBEAT: wire-order fields
`custom_mode = 0`, `type = 2`, `autopilot = 3`, `base_mode = 0`,
`system_status = 0`, `mavlink_version = 3`, sender ids `(0, 1, 1)`. -/
theorem supported_roundtrip_witness :
    (encode_message 0 1 1 ⟨0, [0, 2, 3, 0, 0, 3]⟩).bind decode_stream =
      some ⟨0, [0, 2, 3, 0, 0, 3]⟩ :=
  supported_roundtrip 0 1 1 ⟨0, [0, 2, 3, 0, 0, 3]⟩ [4, 1, 1, 1, 1, 1]
    (by norm_num) (by norm_num) (by norm_num) rfl
    (by norm_num [List.forall₂_cons])

/-- The general encoder at the sample HEARTBEAT's values produces
exactly the bytes of `build_sample_mavlink_stream`. -/
theorem encode_message_build_sample :
    encode_message 0 1 1 ⟨0, [0, 2, 3, 0, 0, 3]⟩ =
      some build_sample_mavlink_stream := by
  with_unfolding_all rfl
